import Mathlib

/-!
Shallow embedding of the storage resilience layer of the donation-receipt
application (server/storage.ts, server/mongodb.ts, server/routes/user.routes.ts).

Conventions of the embedding:
* JavaScript numbers used as ids are modelled as `Int` (all ids in play are
  integers produced by a counter starting at 1; fractional values never match
  an integer map key, which we model by a failed coercion).
* `undefined`/`null` for optional string fields are both modelled as
  `Option.none`; the JS idiom `x || null` (which also maps the empty string
  to `null`) is `jsOrNull`, and `x || d` is `jsOrElse`.
* A JS `Map` is an insertion-ordered association list; `Map.set` replaces in
  place when the key exists and appends otherwise, `Array.from(map.values())`
  is the list of values in that order — exactly `setAssoc` / `map Prod.snd`.
* `localeCompare` on the ASCII receipt/user strings in play, and MongoDB's
  default binary (UTF-8 byte-wise) string comparison, both coincide with
  code-point lexicographic order, which is Lean's `String` linear order.
* Timestamps (`new Date()`) are abstract `Nat` clock values passed in
  explicitly.
-/

/-- Value of a digit string, most significant first (what `parseInt` computes
on a pure-digit string). -/
def digitsVal (cs : List Char) : Nat :=
  cs.foldl (fun n c => 10 * n + (c.toNat - '0'.toNat)) 0

/-- The regular expression test `/^\d+$/.test s`: nonempty and all ASCII digits. -/
def isNumericString (s : String) : Bool :=
  !s.data.isEmpty && s.data.all Char.isDigit

/-- JS `parseInt` (radix 10) on a string: optional sign then the longest digit
prefix; `none` models `NaN` when no digit is found. (Leading whitespace and
`0x` forms are not exercised by this code base.) -/
def parseIntStr (s : String) : Option Int :=
  match s.data with
  | '-' :: cs =>
    let ds := cs.takeWhile Char.isDigit
    if ds.isEmpty then none else some (-(digitsVal ds : Int))
  | '+' :: cs =>
    let ds := cs.takeWhile Char.isDigit
    if ds.isEmpty then none else some ((digitsVal ds : Int))
  | cs =>
    let ds := cs.takeWhile Char.isDigit
    if ds.isEmpty then none else some ((digitsVal ds : Int))

/-- JS `Number(s)`: the empty string coerces to `0`, a full integer literal to
its value, anything else in play to `NaN` (`none`). (Fractional literals
coerce to non-integers, which never match an integer map key or an integer
`id` field, so they are observationally the same as `none` here.) -/
def jsNumberStr (s : String) : Option Int :=
  match s.data with
  | [] => some 0
  | '-' :: cs => if !cs.isEmpty && cs.all Char.isDigit then some (-(digitsVal cs : Int)) else none
  | '+' :: cs => if !cs.isEmpty && cs.all Char.isDigit then some ((digitsVal cs : Int)) else none
  | cs => if cs.all Char.isDigit then some ((digitsVal cs : Int)) else none

/-- An id value of TypeScript type `number | string`. -/
inductive JsId where
  | num (n : Int)
  | str (s : String)
deriving DecidableEq

/-- `Number(id)` for `id : number | string`. -/
def jsNumberOfId : JsId → Option Int
  | .num n => some n
  | .str s => jsNumberStr s

/-- `typeof id === 'string' ? parseInt(id) : id`. -/
def parseIntOfId : JsId → Option Int
  | .num n => some n
  | .str s => parseIntStr s

/-- JS `x || d` for an optional string `x` and a non-empty default `d`:
`undefined`, `null` and `""` are all falsy. -/
def jsOrElse (x : Option String) (d : String) : String :=
  match x with
  | some s => if s = "" then d else s
  | none => d

/-- JS `x || null` for an optional string `x`. -/
def jsOrNull (x : Option String) : Option String :=
  match x with
  | some s => if s = "" then none else some s
  | none => none

/-- Insertion-ordered association-list lookup: `Map.prototype.get`. -/
def getAssoc {β : Type} : List (Int × β) → Int → Option β
  | [], _ => none
  | (k, v) :: l, k' => if k = k' then some v else getAssoc l k'

/-- Insertion-ordered association-list update: `Map.prototype.set` replaces an
existing key in place, otherwise appends. -/
def setAssoc {β : Type} : List (Int × β) → Int → β → List (Int × β)
  | [], k, v => [(k, v)]
  | (k', v') :: l, k, v => if k' = k then (k, v) :: l else (k', v') :: setAssoc l k v

/-- The `InsertUser` shape accepted by `createUser` (role is optional in the
insert schema; `createUser` defaults it). -/
structure InsertUser where
  username : String
  password : String
  fullName : String
  role : Option String
deriving DecidableEq

/-- The `User` record stored by `MemStorage`. -/
structure User where
  id : Int
  username : String
  password : String
  fullName : String
  role : String
  isActive : Bool
  createdAt : Nat
deriving DecidableEq

/-- The `InsertDonation` shape accepted by `createDonation` (optional fields
per the insert schema). -/
structure InsertDonation where
  receiptNumber : String
  date : String
  donorName : String
  contactNumber : String
  address : String
  email : String
  panNumber : Option String
  paymentMode : String
  amount : Int
  amountInWords : String
  purpose : String
  instrumentDate : Option String
  drawnOn : Option String
  instrumentNumber : Option String
  createdBy : Option String
deriving DecidableEq

/-- The `Donation` record stored by `MemStorage`. -/
structure Donation where
  id : Int
  receiptNumber : String
  date : String
  donorName : String
  contactNumber : String
  address : String
  email : String
  panNumber : Option String
  paymentMode : String
  amount : Int
  amountInWords : String
  purpose : String
  instrumentDate : Option String
  drawnOn : Option String
  instrumentNumber : Option String
  createdBy : Option String
  createdAt : Nat
deriving DecidableEq

/-- State of `MemStorage` (server/storage.ts, the variant wrapped by
`StorageWrapper`): two insertion-ordered maps and two id counters. -/
structure MemStorage where
  users : List (Int × User)
  donations : List (Int × Donation)
  userCurrentId : Int
  donationCurrentId : Int
deriving DecidableEq

/-- The `MemStorage` state before the constructor's `createUser` call. -/
def MemStorage.blank : MemStorage :=
  { users := [], donations := [], userCurrentId := 1, donationCurrentId := 1 }

/-- `MemStorage.createUser`: assign the next id, default the role to
`"staff"`, set `isActive` true, store and return the new user. -/
def MemStorage.createUser (s : MemStorage) (insertUser : InsertUser) (now : Nat) :
    MemStorage × User :=
  let id := s.userCurrentId
  let user : User :=
    { id := id
      username := insertUser.username
      password := insertUser.password
      fullName := insertUser.fullName
      role := jsOrElse insertUser.role "staff"
      isActive := true
      createdAt := now }
  ({ s with users := setAssoc s.users id user, userCurrentId := s.userCurrentId + 1 }, user)

/-- The bootstrap admin account created by the `MemStorage` constructor. -/
def adminInsertUser : InsertUser :=
  { username := "admin@example.com", password := "admin123"
    fullName := "Admin User", role := some "admin" }

/-- `new MemStorage()` at clock `now`: empty maps, counters at 1, then the
bootstrap admin user. -/
def initialMemStorage (now : Nat) : MemStorage :=
  (MemStorage.blank.createUser adminInsertUser now).1

/-- `MemStorage.getUser`: `this.users.get(Number(id))`. -/
def MemStorage.getUser (s : MemStorage) (id : JsId) : Option User :=
  match jsNumberOfId id with
  | some n => getAssoc s.users n
  | none => none

/-- `MemStorage.getUserByUsername`: first stored user with that username. -/
def MemStorage.getUserByUsername (s : MemStorage) (username : String) : Option User :=
  (s.users.map Prod.snd).find? (fun u => u.username == username)

/-- `MemStorage.updateUserStatus`: look up `Number(id)`, and if found store and
return a copy of the user with `isActive` replaced. -/
def MemStorage.updateUserStatus (s : MemStorage) (id : JsId) (isActive : Bool) :
    MemStorage × Option User :=
  match jsNumberOfId id with
  | none => (s, none)
  | some n =>
    match getAssoc s.users n with
    | none => (s, none)
    | some user =>
      let updatedUser := { user with isActive := isActive }
      ({ s with users := setAssoc s.users n updatedUser }, some updatedUser)

/-- The donation record `MemStorage.createDonation` builds: every field copied
from the insert shape, optional fields passed through `x || null`, plus the
assigned id and creation time. -/
def mkMemDonation (d : InsertDonation) (id : Int) (now : Nat) : Donation :=
  { id := id
    receiptNumber := d.receiptNumber
    date := d.date
    donorName := d.donorName
    contactNumber := d.contactNumber
    address := d.address
    email := d.email
    panNumber := jsOrNull d.panNumber
    paymentMode := d.paymentMode
    amount := d.amount
    amountInWords := d.amountInWords
    purpose := d.purpose
    instrumentDate := jsOrNull d.instrumentDate
    drawnOn := jsOrNull d.drawnOn
    instrumentNumber := jsOrNull d.instrumentNumber
    createdBy := jsOrNull d.createdBy
    createdAt := now }

/-- `MemStorage.createDonation`: assign the next id and store the record. -/
def MemStorage.createDonation (s : MemStorage) (d : InsertDonation) (now : Nat) :
    MemStorage × Donation :=
  let id := s.donationCurrentId
  let donation := mkMemDonation d id now
  ({ s with donations := setAssoc s.donations id donation,
            donationCurrentId := s.donationCurrentId + 1 }, donation)

/-- `MemStorage.getDonationByReceiptNumber`: first stored donation with that
receipt number, in insertion order. -/
def MemStorage.getDonationByReceiptNumber (s : MemStorage) (receiptNumber : String) :
    Option Donation :=
  (s.donations.map Prod.snd).find? (fun d => d.receiptNumber == receiptNumber)

/-- The receipt numbers currently stored, in insertion order. -/
def MemStorage.receiptNumbers (s : MemStorage) : List String :=
  s.donations.map (fun p => p.2.receiptNumber)

/-- Code-point lexicographic order on character lists; this is the comparison
`localeCompare` performs on the ASCII strings in play, and also MongoDB's
default binary (UTF-8 byte-wise) string order, since UTF-8 preserves
code-point order. -/
def lexLeChars : List Char → List Char → Bool
  | [], _ => true
  | _ :: _, [] => false
  | a :: as, b :: bs =>
    if a.toNat = b.toNat then lexLeChars as bs
    else decide (a.toNat < b.toNat)

/-- Code-point lexicographic order on strings (see `lexLeChars`). -/
def lexLe (a b : String) : Bool := lexLeChars a.data b.data

/-- `a` sorts before-or-equal `b` under the comparator of
`MemStorage.getLastReceiptNumber` (server/storage.ts):
`comparator(a,b) = parseInt(b) - parseInt(a)` when both receipt numbers match
`/^\d+$/`, else `b.localeCompare(a)`; this is `comparator(a,b) <= 0`. -/
def receiptLe (a b : String) : Bool :=
  if isNumericString a && isNumericString b then
    decide (digitsVal b.data ≤ digitsVal a.data)
  else
    lexLe b a

/-- Insert into a list sorted by the boolean relation `le` (used to model
`Array.prototype.sort` with a comparator; tie order among comparator-equal
elements is not relied upon by any theorem below). -/
def jsOrderedInsert {α : Type} (le : α → α → Bool) (a : α) : List α → List α
  | [] => [a]
  | b :: l => if le a b then a :: b :: l else b :: jsOrderedInsert le a l

/-- Sort by the boolean relation `le`, modelling `Array.prototype.sort` with a
comparator (`le a b` iff `comparator(a,b) <= 0`). -/
def jsSortBy {α : Type} (le : α → α → Bool) : List α → List α
  | [] => []
  | a :: l => jsOrderedInsert le a (jsSortBy le l)

/-- `MemStorage.getLastReceiptNumber` (the variant wrapped by
`StorageWrapper`): `undefined` on an empty store, else sort the donations with
the numeric-aware comparator and return the first receipt number. -/
def MemStorage.getLastReceiptNumber (s : MemStorage) : Option String :=
  match jsSortBy (fun a b => receiptLe a.receiptNumber b.receiptNumber)
      (s.donations.map Prod.snd) with
  | [] => none
  | d :: _ => some d.receiptNumber

/-- Which backing store a facade operation is applied to:
`memStorage` (`MemStorage`) or `mongoStorage` (`MongoDBStorage`). -/
inductive StoreId where
  | mem
  | mongo
deriving DecidableEq

/-- The mutable fields of a `StorageWrapper` object (server/storage.ts): the
two backing-store references and the two flags, which start `false`. -/
structure StorageWrapper where
  primaryStorage : StoreId
  fallbackStorage : StoreId
  useFallback : Bool
  connectionTestCompleted : Bool
deriving DecidableEq

/-- The guard deadline (ms) raced against every primary-store attempt in
`StorageWrapper.executeWithFallback`. -/
def GUARD_DEADLINE_MS : Nat := 3000

/-- How a single attempt of an operation against the primary store settles:
it succeeds within the 3000 ms guard (`ok`), it rejects/throws (`threw`), or
the guard timer wins the `Promise.race` (`timedOut`). -/
inductive OpOutcome (ε α : Type) where
  | ok (a : α)
  | threw (e : ε)
  | timedOut
deriving DecidableEq

/-- One facade operation, described by what its attempt against the primary
store would do and by the result the fallback store would produce for it. -/
structure OpSpec (ε α : Type) where
  primary : OpOutcome ε α
  fallback : Except ε α

/-- `StorageWrapper.executeWithFallback`. Returns the new wrapper state, the
result delivered to the caller (`Except.error` models a rejected promise
propagating out of the facade), and the list of stores the operation closure
was applied to, in order. In fallback state the operation goes directly to
the fallback store; otherwise the primary is attempted under the guard, a
success marks `connectionTestCompleted`, and a throw or timeout sets
`useFallback` and re-issues the operation against the fallback store. -/
def executeWithFallback {ε α : Type} (s : StorageWrapper) (primary : OpOutcome ε α)
    (fallback : Except ε α) : StorageWrapper × Except ε α × List StoreId :=
  if s.useFallback then
    (s, fallback, [s.fallbackStorage])
  else
    match primary with
    | .ok a =>
      (if s.connectionTestCompleted then s else { s with connectionTestCompleted := true },
        .ok a, [s.primaryStorage])
    | .threw _ => ({ s with useFallback := true }, fallback, [s.primaryStorage, s.fallbackStorage])
    | .timedOut => ({ s with useFallback := true }, fallback, [s.primaryStorage, s.fallbackStorage])

/-- Run a sequence of facade operations, threading the wrapper state and
collecting each operation's result and the stores it was applied to. -/
def runOps {ε α : Type} (s : StorageWrapper) :
    List (OpSpec ε α) → StorageWrapper × List (Except ε α × List StoreId)
  | [] => (s, [])
  | op :: rest =>
    let step := executeWithFallback s op.primary op.fallback
    let tail := runOps step.1 rest
    (tail.1, (step.2.1, step.2.2) :: tail.2)

/-- The process-wide facade as constructed at module load
(`new StorageWrapper(memStorage, memStorage)`, server/storage.ts line 576):
the in-memory store is both primary and fallback. -/
def initialStorageWrapper : StorageWrapper :=
  { primaryStorage := .mem, fallbackStorage := .mem
    useFallback := false, connectionTestCompleted := false }

/-- The wrapper spliced onto the live facade by `Object.assign` when the
one-shot delayed connection probe succeeds
(`new StorageWrapper(mongoStorage, memStorage)`, server/storage.ts line 611). -/
def probeSuccessWrapper : StorageWrapper :=
  { primaryStorage := .mongo, fallbackStorage := .mem
    useFallback := false, connectionTestCompleted := false }

/-- Is `c` an ASCII hex digit (what the `ObjectId` constructor accepts). -/
def isHexChar (c : Char) : Bool :=
  c.isDigit || ('a' ≤ c && c ≤ 'f') || ('A' ≤ c && c ≤ 'F')

/-- `new ObjectId(s)` succeeds exactly when `s` is a 24-character hex string;
otherwise it throws (caught by the surrounding try/catch in the source). -/
def isValidObjectId (s : String) : Bool :=
  s.length == 24 && s.data.all isHexChar

/-- A document of the MongoDB `users` collection. `oid` is the native `_id`
(a 24-char hex string); `idField` is the legacy `id` field, present only on
documents that carry one (it can hold a number or a string); `isActive` and
`createdAt` may be absent (the source reads them with `?? true` /
`?? new Date()`). Remaining fields as stored. -/
structure UserDoc where
  oid : String
  idField : Option JsId
  username : String
  password : String
  fullName : String
  role : String
  isActive : Option Bool
  createdAt : Option Nat
deriving DecidableEq

/-- The `User` value `MongoDBStorage` returns to callers: `id` is
`_id.toString()`, missing `isActive` defaults to `true`, missing `createdAt`
to the current clock (`new Date()` at call time, passed in as `now`). -/
structure MongoUser where
  id : String
  username : String
  password : String
  fullName : String
  role : String
  isActive : Bool
  createdAt : Nat
deriving DecidableEq

/-- Map a found document to the returned `User` shape (server/mongodb.ts,
the projection used by `getUser` and `updateUserStatus`). -/
def mongoUserOfDoc (d : UserDoc) (now : Nat) : MongoUser :=
  { id := d.oid, username := d.username, password := d.password
    fullName := d.fullName, role := d.role
    isActive := d.isActive.getD true, createdAt := d.createdAt.getD now }

/-- The document `MongoDBStorage.getUser` selects (server/mongodb.ts first
copy, lines 147-210): when the id is a 24-char string that parses as an
`ObjectId`, first `findOne({_id})`; if that found nothing (or the branch was
skipped), `parseInt` the id and `findOne({id: numericId})` when not `NaN`;
otherwise `undefined`. There is no raw-string fallback in `getUser`. -/
def mongoGetUserLookup (docs : List UserDoc) (id : JsId) : Option UserDoc :=
  let byOid : Option UserDoc :=
    match id with
    | .str s => if isValidObjectId s then docs.find? (fun d => d.oid == s) else none
    | .num _ => none
  match byOid with
  | some d => some d
  | none =>
    match parseIntOfId id with
    | some n => docs.find? (fun d => d.idField == some (JsId.num n))
    | none => none

/-- `MongoDBStorage.getUser`: the selected document projected to a user. -/
def mongoGetUser (docs : List UserDoc) (id : JsId) (now : Nat) : Option MongoUser :=
  (mongoGetUserLookup docs id).map (fun d => mongoUserOfDoc d now)

/-- The document `MongoDBStorage.updateUserStatus` selects (server/mongodb.ts
first copy, lines 279-355): `findOne({_id: objectId})` when the id converts
to an `ObjectId`; if not found, `findOne({id: Number(id)})` when `Number(id)`
is not `NaN`; if still not found and the id is a string,
`findOne({id: id})`. -/
def mongoUpdateLookup (docs : List UserDoc) (id : JsId) : Option UserDoc :=
  let byOid : Option UserDoc :=
    match id with
    | .str s => if isValidObjectId s then docs.find? (fun d => d.oid == s) else none
    | .num _ => none
  match byOid with
  | some d => some d
  | none =>
    let byNum : Option UserDoc :=
      match jsNumberOfId id with
      | some n => docs.find? (fun d => d.idField == some (JsId.num n))
      | none => none
    match byNum with
    | some d => some d
    | none =>
      match id with
      | .str s => docs.find? (fun d => d.idField == some (JsId.str s))
      | .num _ => none

/-- `MongoDBStorage.updateUserStatus`: select a document with
`mongoUpdateLookup`, then `findOneAndUpdate({_id: user._id})` setting
`isActive` (`_id` is unique, so replacing every document with that `_id`
replaces exactly the found one) and return the updated projection. -/
def mongoUpdateUserStatus (docs : List UserDoc) (id : JsId) (isActive : Bool) (now : Nat) :
    List UserDoc × Option MongoUser :=
  match mongoUpdateLookup docs id with
  | none => (docs, none)
  | some u =>
    let updated := { u with isActive := some isActive }
    (docs.map (fun d => if d.oid == u.oid then updated else d),
      some (mongoUserOfDoc updated now))

/-- Modelled from the spec: the single-strategy lookup treating the input as
the remote-native (`ObjectId`) key. -/
def lookupByNativeKey (docs : List UserDoc) (id : JsId) : Option UserDoc :=
  match id with
  | .str s => if isValidObjectId s then docs.find? (fun d => d.oid == s) else none
  | .num _ => none

/-- Modelled from the spec: the single-strategy lookup treating the input as a
small integer key, with `parseInt` coercion (the coercion `getUser` uses). -/
def lookupByIntKeyParseInt (docs : List UserDoc) (id : JsId) : Option UserDoc :=
  match parseIntOfId id with
  | some n => docs.find? (fun d => d.idField == some (JsId.num n))
  | none => none

/-- Modelled from the spec: the single-strategy lookup treating the input as a
small integer key, with `Number` coercion (the coercion `updateUserStatus`
uses). -/
def lookupByIntKeyNumber (docs : List UserDoc) (id : JsId) : Option UserDoc :=
  match jsNumberOfId id with
  | some n => docs.find? (fun d => d.idField == some (JsId.num n))
  | none => none

/-- Modelled from the spec: the single-strategy lookup treating the input as a
raw string key. -/
def lookupByStringKey (docs : List UserDoc) (id : JsId) : Option UserDoc :=
  match id with
  | .str s => docs.find? (fun d => d.idField == some (JsId.str s))
  | .num _ => none

/-- Modelled from the spec (§4.2 identity reconciliation): try the
remote-native key, then the integer key, then the raw string key, returning
the first interpretation that matches. -/
def specThreeStrategyLookup (docs : List UserDoc) (id : JsId) : Option UserDoc :=
  ((lookupByNativeKey docs id).orElse fun _ =>
    lookupByIntKeyNumber docs id).orElse fun _ =>
      lookupByStringKey docs id

/-- The two-strategy composition (native key, then integer key) that
`getUser` actually implements. -/
def specTwoStrategyLookup (docs : List UserDoc) (id : JsId) : Option UserDoc :=
  (lookupByNativeKey docs id).orElse fun _ => lookupByIntKeyParseInt docs id

/-- A document of the MongoDB `donations` collection, reduced to the one field
the receipt-number derivation reads. -/
structure MongoDonationDoc where
  receiptNumber : String
deriving DecidableEq

/-- `find(query).sort({receiptNumber: -1}).limit(1)`: a document whose
`receiptNumber` is greatest in MongoDB's binary string order (`lexLe`), or
`none` on an empty result set. -/
def mongoMaxByReceipt : List MongoDonationDoc → Option MongoDonationDoc
  | [] => none
  | d :: ds =>
    match mongoMaxByReceipt ds with
    | none => some d
    | some e => if lexLe e.receiptNumber d.receiptNumber then some d else some e

/-- `MongoDBStorage.getLastReceiptNumber` (server/mongodb.ts first copy,
lines 503-535): first query only documents whose receipt number matches
`/^\d+$/`, sorted descending by the string field; if any exist return the top
one, else take the top of a descending sort over all documents, and
`undefined` when there are none. -/
def mongoGetLastReceiptNumber (docs : List MongoDonationDoc) : Option String :=
  let numericResults := docs.filter (fun d => isNumericString d.receiptNumber)
  match mongoMaxByReceipt numericResults with
  | some d => some d.receiptNumber
  | none =>
    match mongoMaxByReceipt docs with
    | some d => some d.receiptNumber
    | none => none

/-- Outcome of the create-user route handler, after schema validation. -/
inductive CreateUserResponse where
  | badRequest
  | created (u : User)
deriving DecidableEq

/-- The create-user route (server/routes/user.routes.ts, `router.post('/')`),
after the body passed schema validation: reject with 400 when
`getUserByUsername` finds an existing account, else call `createUser` and
answer 201 with the created account. -/
def createUserRoute (s : MemStorage) (newUser : InsertUser) (now : Nat) :
    MemStorage × CreateUserResponse :=
  match s.getUserByUsername newUser.username with
  | some _ => (s, .badRequest)
  | none =>
    let p := s.createUser newUser now
    (p.1, .created p.2)

/-! ### Concrete data used by counterexamples and witnesses -/

/-- A schema-valid donation submission with the given receipt number. -/
def sampleInsertDonation (rn : String) : InsertDonation :=
  { receiptNumber := rn, date := "2023-01-01", donorName := "Donor"
    contactNumber := "9999999999", address := "Indore", email := "donor@example.com"
    panNumber := none, paymentMode := "cash", amount := 100
    amountInWords := "One Hundred", purpose := "General", instrumentDate := none
    drawnOn := none, instrumentNumber := none, createdBy := none }

/-- A store holding the spec's mixed receipt-number example:
first `"ANT2023009"`, then `"8"`. -/
def c5MixedStore : MemStorage :=
  ((MemStorage.blank.createDonation (sampleInsertDonation "ANT2023009") 0).1.createDonation
    (sampleInsertDonation "8") 0).1

/-- A store holding the spec's all-numeric receipt-number example
`"7"`, `"12"`, `"9"`. -/
def c5NumericStore : MemStorage :=
  (((MemStorage.blank.createDonation (sampleInsertDonation "7") 0).1.createDonation
    (sampleInsertDonation "12") 0).1.createDonation (sampleInsertDonation "9") 0).1

/-- A MongoDB donations collection with receipt numbers `"7"`, `"12"`, `"9"`. -/
def c6Docs : List MongoDonationDoc :=
  [MongoDonationDoc.mk "7", MongoDonationDoc.mk "12", MongoDonationDoc.mk "9"]

/-- A MongoDB donations collection with no purely numeric receipt number. -/
def c6AlphaDocs : List MongoDonationDoc :=
  [MongoDonationDoc.mk "ANT2023009", MongoDonationDoc.mk "ANT2023011"]

/-- A MongoDB user document whose legacy `id` field holds the raw string
`"abc"` (not an `ObjectId`, not numeric). -/
def c7Doc : UserDoc :=
  { oid := "aaaaaaaaaaaaaaaaaaaaaaaa", idField := some (JsId.str "abc")
    username := "bob@example.com", password := "pw", fullName := "Bob B"
    role := "staff", isActive := some true, createdAt := some 0 }

/-- A users collection containing only `c7Doc`. -/
def c7Docs : List UserDoc := [c7Doc]

/-- A donation submission whose optional PAN field is present but empty —
schema-valid (`panNumber` is an optional plain string, and the client form
even defaults it to `""`). -/
def c8Insert : InsertDonation :=
  { sampleInsertDonation "R1" with panNumber := some "" }

/-- The bootstrap admin `User` record as created at clock 0. -/
def adminUser0 : User :=
  { id := 1, username := "admin@example.com", password := "admin123"
    fullName := "Admin User", role := "admin", isActive := true, createdAt := 0 }

/-- A create-account submission whose username is not yet taken in
`initialMemStorage 0`. -/
def freshInsertUser : InsertUser :=
  { username := "staff@example.com", password := "pw", fullName := "Staff S", role := none }

/-! ### Order lemmas for the lexicographic comparison -/

theorem lexLeChars_refl : ∀ as, lexLeChars as as = true
  | [] => rfl
  | _ :: as => by simp [lexLeChars, lexLeChars_refl as]

theorem lexLeChars_total : ∀ as bs, lexLeChars as bs = true ∨ lexLeChars bs as = true
  | [], _ => Or.inl rfl
  | _ :: _, [] => Or.inr rfl
  | a :: as, b :: bs => by
    by_cases h : a.toNat = b.toNat
    · have h2 : b.toNat = a.toNat := h.symm
      rcases lexLeChars_total as bs with h' | h'
      · left; simp only [lexLeChars, if_pos h]; exact h'
      · right; simp only [lexLeChars, if_pos h2]; exact h'
    · by_cases hlt : a.toNat < b.toNat
      · left; simp only [lexLeChars, if_neg h]; exact decide_eq_true hlt
      · right
        have h2 : ¬ b.toNat = a.toNat := fun hh => h hh.symm
        simp only [lexLeChars, if_neg h2]
        have hx : b.toNat < a.toNat := by omega
        exact decide_eq_true hx

theorem lexLeChars_trans : ∀ as bs cs, lexLeChars as bs = true → lexLeChars bs cs = true →
    lexLeChars as cs = true
  | [], _, _ => by intro h1 h2; rfl
  | _ :: _, [], _ => by intro h1 h2; simp [lexLeChars] at h1
  | _ :: _, _ :: _, [] => by intro h1 h2; simp [lexLeChars] at h2
  | a :: as, b :: bs, c :: cs => by
    intro h1 h2
    simp only [lexLeChars] at h1 h2 ⊢
    by_cases hab : a.toNat = b.toNat <;> by_cases hbc : b.toNat = c.toNat
    · have hac : a.toNat = c.toNat := hab.trans hbc
      rw [if_pos hab] at h1; rw [if_pos hbc] at h2; rw [if_pos hac]
      exact lexLeChars_trans as bs cs h1 h2
    · rw [if_pos hab] at h1; rw [if_neg hbc] at h2
      have h2' : b.toNat < c.toNat := of_decide_eq_true h2
      have hac : ¬ a.toNat = c.toNat := by omega
      rw [if_neg hac]
      exact decide_eq_true (by omega)
    · rw [if_neg hab] at h1; rw [if_pos hbc] at h2
      have h1' : a.toNat < b.toNat := of_decide_eq_true h1
      have hac : ¬ a.toNat = c.toNat := by omega
      rw [if_neg hac]
      exact decide_eq_true (by omega)
    · rw [if_neg hab] at h1; rw [if_neg hbc] at h2
      have h1' : a.toNat < b.toNat := of_decide_eq_true h1
      have h2' : b.toNat < c.toNat := of_decide_eq_true h2
      have hac : ¬ a.toNat = c.toNat := by omega
      rw [if_neg hac]
      exact decide_eq_true (by omega)

theorem lexLe_refl (a : String) : lexLe a a = true := lexLeChars_refl a.data

theorem lexLe_total (a b : String) : lexLe a b = true ∨ lexLe b a = true :=
  lexLeChars_total a.data b.data

theorem lexLe_trans {a b c : String} (h1 : lexLe a b = true) (h2 : lexLe b c = true) :
    lexLe a c = true :=
  lexLeChars_trans a.data b.data c.data h1 h2

/-! ### Lemmas about the comparator-sort model -/

theorem mem_jsOrderedInsert {α : Type} (le : α → α → Bool) (a x : α) :
    ∀ l : List α, x ∈ jsOrderedInsert le a l ↔ x = a ∨ x ∈ l
  | [] => by simp [jsOrderedInsert]
  | b :: l => by
    simp only [jsOrderedInsert]
    split
    · simp [List.mem_cons]
    · rw [List.mem_cons, mem_jsOrderedInsert le a x l, List.mem_cons]
      tauto

theorem mem_jsSortBy {α : Type} (le : α → α → Bool) (x : α) :
    ∀ l : List α, x ∈ jsSortBy le l ↔ x ∈ l
  | [] => Iff.rfl
  | a :: l => by
    simp only [jsSortBy]
    rw [mem_jsOrderedInsert, mem_jsSortBy le x l, List.mem_cons]

theorem pairwise_jsOrderedInsert {α : Type} (le : α → α → Bool) (a : α) :
    ∀ l : List α,
      l.Pairwise (fun x y => le x y = true) →
      (∀ x ∈ l, le a x = true ∨ le x a = true) →
      (∀ x ∈ l, ∀ y ∈ l, le a x = true → le x y = true → le a y = true) →
      (jsOrderedInsert le a l).Pairwise (fun x y => le x y = true)
  | [], _, _, _ => by simp [jsOrderedInsert]
  | b :: l, hp, htot, htrans => by
    simp only [jsOrderedInsert]
    split
    case isTrue hab =>
      apply List.Pairwise.cons _ hp
      intro y hy
      rcases List.mem_cons.mp hy with rfl | hyl
      · exact hab
      · have hby : le b y = true := (List.pairwise_cons.mp hp).1 y hyl
        exact htrans b (List.mem_cons_self b l) y (List.mem_cons_of_mem b hyl) hab hby
    case isFalse hab =>
      have hba : le b a = true := by
        rcases htot b (List.mem_cons_self b l) with h | h
        · exact absurd h hab
        · exact h
      apply List.Pairwise.cons
      · intro y hy
        rcases (mem_jsOrderedInsert le a y l).mp hy with rfl | hyl
        · exact hba
        · exact (List.pairwise_cons.mp hp).1 y hyl
      · exact pairwise_jsOrderedInsert le a l (List.pairwise_cons.mp hp).2
          (fun x hx => htot x (List.mem_cons_of_mem b hx))
          (fun x hx y hy => htrans x (List.mem_cons_of_mem b hx) y (List.mem_cons_of_mem b hy))

theorem pairwise_jsSortBy {α : Type} (le : α → α → Bool) :
    ∀ l : List α,
      (∀ x ∈ l, ∀ y ∈ l, le x y = true ∨ le y x = true) →
      (∀ x ∈ l, ∀ y ∈ l, ∀ z ∈ l, le x y = true → le y z = true → le x z = true) →
      (jsSortBy le l).Pairwise (fun x y => le x y = true)
  | [], _, _ => List.Pairwise.nil
  | a :: l, htot, htrans => by
    simp only [jsSortBy]
    have hmem : ∀ x ∈ jsSortBy le l, x ∈ l := fun x hx => (mem_jsSortBy le x l).mp hx
    apply pairwise_jsOrderedInsert
    · exact pairwise_jsSortBy le l
        (fun x hx y hy => htot x (List.mem_cons_of_mem a hx) y (List.mem_cons_of_mem a hy))
        (fun x hx y hy z hz => htrans x (List.mem_cons_of_mem a hx) y
          (List.mem_cons_of_mem a hy) z (List.mem_cons_of_mem a hz))
    · intro x hx
      exact htot a (List.mem_cons_self a l) x (List.mem_cons_of_mem a (hmem x hx))
    · intro x hx y hy hax hxy
      exact htrans a (List.mem_cons_self a l) x (List.mem_cons_of_mem a (hmem x hx)) y
        (List.mem_cons_of_mem a (hmem y hy)) hax hxy

theorem jsSortBy_head_max {α : Type} (le : α → α → Bool) (l : List α) (a : α) (rest : List α)
    (hsort : jsSortBy le l = a :: rest)
    (htot : ∀ x ∈ l, ∀ y ∈ l, le x y = true ∨ le y x = true)
    (htrans : ∀ x ∈ l, ∀ y ∈ l, ∀ z ∈ l, le x y = true → le y z = true → le x z = true) :
    a ∈ l ∧ ∀ x ∈ l, le a x = true := by
  have ha : a ∈ l := (mem_jsSortBy le a l).mp (hsort ▸ List.mem_cons_self a rest)
  have hp := pairwise_jsSortBy le l htot htrans
  rw [hsort] at hp
  refine ⟨ha, fun x hx => ?_⟩
  have hx' : x ∈ a :: rest := hsort ▸ (mem_jsSortBy le x l).mpr hx
  rcases List.mem_cons.mp hx' with rfl | hxr
  · rcases htot x ha x ha with h | h <;> exact h
  · exact (List.pairwise_cons.mp hp).1 x hxr

theorem length_jsOrderedInsert {α : Type} (le : α → α → Bool) (a : α) :
    ∀ l : List α, (jsOrderedInsert le a l).length = l.length + 1
  | [] => rfl
  | b :: l => by
    simp only [jsOrderedInsert]
    split
    · rfl
    · simp [length_jsOrderedInsert le a l]

theorem length_jsSortBy {α : Type} (le : α → α → Bool) :
    ∀ l : List α, (jsSortBy le l).length = l.length
  | [] => rfl
  | a :: l => by
    simp only [jsSortBy]
    rw [length_jsOrderedInsert, length_jsSortBy le l, List.length_cons]

/-! ### Lemmas about the association-list map model -/

theorem getAssoc_setAssoc_self {β : Type} :
    ∀ (l : List (Int × β)) (k : Int) (v : β), getAssoc (setAssoc l k v) k = some v
  | [], k, v => by simp [setAssoc, getAssoc]
  | (k', v') :: l, k, v => by
    simp only [setAssoc]
    split
    case isTrue h => simp [getAssoc]
    case isFalse h => simp only [getAssoc, if_neg h, getAssoc_setAssoc_self l k v]

theorem getAssoc_setAssoc_ne {β : Type} :
    ∀ (l : List (Int × β)) (k j : Int) (v : β), k ≠ j →
      getAssoc (setAssoc l k v) j = getAssoc l j
  | [], k, j, v, h => by simp [setAssoc, getAssoc, h]
  | (k', v') :: l, k, j, v, h => by
    simp only [setAssoc]
    split
    case isTrue hk =>
      subst hk
      simp [getAssoc, h]
    case isFalse hk =>
      simp only [getAssoc, getAssoc_setAssoc_ne l k j v h]

/-! ### Lemmas about the MongoDB descending-sort model -/

theorem mongoMaxByReceipt_cons_isSome (d : MongoDonationDoc) (ds : List MongoDonationDoc) :
    (mongoMaxByReceipt (d :: ds)).isSome := by
  simp only [mongoMaxByReceipt]
  cases hds : mongoMaxByReceipt ds with
  | none => rfl
  | some e =>
    show (if lexLe e.receiptNumber d.receiptNumber = true then some d else some e).isSome = true
    split <;> rfl

theorem mongoMaxByReceipt_spec : ∀ (docs : List MongoDonationDoc) (d : MongoDonationDoc),
    mongoMaxByReceipt docs = some d →
    d ∈ docs ∧ ∀ x ∈ docs, lexLe x.receiptNumber d.receiptNumber = true
  | [], d => by intro h; simp [mongoMaxByReceipt] at h
  | a :: ds, d => by
    intro h
    simp only [mongoMaxByReceipt] at h
    cases hds : mongoMaxByReceipt ds with
    | none =>
      rw [hds] at h
      cases h
      have hdsnil : ds = [] := by
        cases ds with
        | nil => rfl
        | cons b bs =>
          have := mongoMaxByReceipt_cons_isSome b bs
          rw [hds] at this
          simp at this
      subst hdsnil
      refine ⟨List.mem_singleton_self a, fun x hx => ?_⟩
      rcases List.mem_singleton.mp hx with rfl
      exact lexLe_refl _
    | some e =>
      rw [hds] at h
      have h' : (if lexLe e.receiptNumber a.receiptNumber = true then some a else some e)
          = some d := h
      obtain ⟨he, hemax⟩ := mongoMaxByReceipt_spec ds e hds
      by_cases hle : lexLe e.receiptNumber a.receiptNumber = true
      · rw [if_pos hle] at h'
        cases h'
        refine ⟨List.mem_cons_self a ds, fun x hx => ?_⟩
        rcases List.mem_cons.mp hx with rfl | hxds
        · exact lexLe_refl _
        · exact lexLe_trans (hemax x hxds) hle
      · rw [if_neg hle] at h'
        cases h'
        refine ⟨List.mem_cons_of_mem a he, fun x hx => ?_⟩
        rcases List.mem_cons.mp hx with rfl | hxds
        · rcases lexLe_total d.receiptNumber x.receiptNumber with h1 | h1
          · exact absurd h1 hle
          · exact h1
        · exact hemax x hxds

/-! ### Lemmas about the facade state machine -/

theorem executeWithFallback_inFallback {ε α : Type} (s : StorageWrapper)
    (p : OpOutcome ε α) (fb : Except ε α) (h : s.useFallback = true) :
    executeWithFallback s p fb = (s, fb, [s.fallbackStorage]) := by
  simp [executeWithFallback, h]

theorem runOps_inFallback {ε α : Type} (s : StorageWrapper) (h : s.useFallback = true) :
    ∀ ops : List (OpSpec ε α),
      runOps s ops = (s, ops.map fun op => (op.fallback, [s.fallbackStorage]))
  | [] => by simp [runOps]
  | op :: rest => by
    simp only [runOps, executeWithFallback_inFallback s op.primary op.fallback h,
      runOps_inFallback s h rest, List.map_cons]

theorem executeWithFallback_flip_only_on_failure {ε α : Type} (s : StorageWrapper)
    (p : OpOutcome ε α) (fb : Except ε α)
    (h : (executeWithFallback s p fb).1.useFallback = true) :
    s.useFallback = true ∨ (∃ e, p = OpOutcome.threw e) ∨ p = OpOutcome.timedOut := by
  by_cases hs : s.useFallback = true
  · exact Or.inl hs
  · cases p with
    | ok a =>
      exfalso
      simp only [executeWithFallback, hs, if_neg] at h
      simp only [Bool.not_eq_true] at hs
      rw [if_neg (by simp [hs])] at h
      split at h <;> simp_all
    | threw e => exact Or.inr (Or.inl ⟨e, rfl⟩)
    | timedOut => exact Or.inr (Or.inr rfl)

theorem runOps_all_ok {ε α : Type} :
    ∀ (opsData : List (α × Except ε α)) (s : StorageWrapper), s.useFallback = false →
      (runOps s (opsData.map fun p => OpSpec.mk (OpOutcome.ok p.1) p.2)).2 =
        opsData.map (fun p => (Except.ok p.1, [s.primaryStorage])) ∧
      (runOps s (opsData.map fun p => OpSpec.mk (OpOutcome.ok p.1) p.2)).1.useFallback = false ∧
      (runOps s (opsData.map fun p => OpSpec.mk (OpOutcome.ok p.1) p.2)).1.primaryStorage
        = s.primaryStorage ∧
      (runOps s (opsData.map fun p => OpSpec.mk (OpOutcome.ok p.1) p.2)).1.fallbackStorage
        = s.fallbackStorage
  | [], s, h => by simp [runOps, h]
  | (a, fb) :: rest, s, h => by
    by_cases hc : s.connectionTestCompleted
    · have hstep : executeWithFallback s (OpOutcome.ok a) fb =
          (s, Except.ok a, [s.primaryStorage]) := by
        simp [executeWithFallback, h, hc]
      obtain ⟨ih1, ih2, ih3, ih4⟩ := runOps_all_ok rest s h
      simp only [List.map_cons, runOps, hstep]
      exact ⟨by rw [ih1], ih2, ih3, ih4⟩
    · have hstep : executeWithFallback s (OpOutcome.ok a) fb =
          ({ s with connectionTestCompleted := true }, Except.ok a, [s.primaryStorage]) := by
        simp [executeWithFallback, h, hc]
      obtain ⟨ih1, ih2, ih3, ih4⟩ :=
        runOps_all_ok rest { s with connectionTestCompleted := true } h
      simp only [List.map_cons, runOps, hstep]
      exact ⟨by rw [ih1], ih2, ih3, ih4⟩

/-! ### Claim theorems -/

/-- C1: while the facade is not yet in fallback state, a primary-store attempt
that throws or that loses the 3-second guard race makes the facade set
`useFallback` — permanently: it stays set under any further sequence of
operations — re-issue the exact same operation against the fallback store
(the in-memory store in both constructed wrappers) and hand the caller that
operation's result or error; the primary error `e` never appears in what the
caller sees, which is exactly the fallback result. -/
theorem anant_C1_failure_triggers_fallback {ε α : Type} (s : StorageWrapper)
    (fb : Except ε α) (h : s.useFallback = false) :
    (∀ e : ε, executeWithFallback s (OpOutcome.threw e) fb =
      ({ s with useFallback := true }, fb, [s.primaryStorage, s.fallbackStorage])) ∧
    executeWithFallback s OpOutcome.timedOut fb =
      ({ s with useFallback := true }, fb, [s.primaryStorage, s.fallbackStorage]) ∧
    (∀ ops : List (OpSpec ε α),
      (runOps { s with useFallback := true } ops).1.useFallback = true) ∧
    initialStorageWrapper.fallbackStorage = StoreId.mem ∧
    probeSuccessWrapper.fallbackStorage = StoreId.mem := by
  refine ⟨?_, ?_, ?_, rfl, rfl⟩
  · intro e; simp [executeWithFallback, h]
  · simp [executeWithFallback, h]
  · intro ops
    rw [runOps_inFallback { s with useFallback := true } rfl ops]

/-- C1 witness at the promoted wrapper: a thrown primary error yields the
fallback result and the permanently flipped state. -/
theorem anant_C1_witness :
    executeWithFallback probeSuccessWrapper (OpOutcome.threw "boom") (Except.ok (42 : Nat)) =
      ({ probeSuccessWrapper with useFallback := true }, Except.ok 42,
        [StoreId.mongo, StoreId.mem]) :=
  (anant_C1_failure_triggers_fallback probeSuccessWrapper (Except.ok 42) rfl).1 "boom"

/-- C2: once the facade is in fallback state, any sequence of operations is
served directly by the fallback (in-memory) store — each operation is applied
only to `s.fallbackStorage` and returns the fallback result regardless of the
primary outcomes — the wrapper state never changes (the designation is
monotonic), and the primary store is never attempted again whenever it is a
distinct store. -/
theorem anant_C2_fallback_monotonic {ε α : Type} (s : StorageWrapper)
    (h : s.useFallback = true) (ops : List (OpSpec ε α)) :
    runOps s ops = (s, ops.map fun op => (op.fallback, [s.fallbackStorage])) ∧
    (runOps s ops).1.useFallback = true ∧
    (s.primaryStorage ≠ s.fallbackStorage →
      ∀ pr ∈ (runOps s ops).2, s.primaryStorage ∉ pr.2) := by
  have hrun := runOps_inFallback s h ops
  refine ⟨hrun, by rw [hrun]; exact h, ?_⟩
  intro hne pr hpr
  rw [hrun] at hpr
  obtain ⟨op, _, rfl⟩ := List.mem_map.mp hpr
  simp [hne]

/-- C2 witness at the promoted wrapper already in fallback state: two
operations (one would even succeed on the primary) both go to the in-memory
store and the state is unchanged. -/
theorem anant_C2_witness :
    runOps { probeSuccessWrapper with useFallback := true }
        [OpSpec.mk (OpOutcome.threw "down") (Except.ok (1 : Nat)),
          OpSpec.mk (OpOutcome.ok 2) (Except.ok 7)] =
      ({ probeSuccessWrapper with useFallback := true },
        [(Except.ok 1, [StoreId.mem]), (Except.ok 7, [StoreId.mem])]) :=
  (anant_C2_fallback_monotonic { probeSuccessWrapper with useFallback := true } rfl
    [OpSpec.mk (OpOutcome.threw "down") (Except.ok (1 : Nat)),
      OpSpec.mk (OpOutcome.ok 2) (Except.ok 7)]).1

/-- C3: for a sequence of operations each of whose primary attempts succeeds
within the guard deadline, starting outside fallback state, every operation is
applied only to the primary store with the primary's success value returned,
and the fallback flag is never set. -/
theorem anant_C3_success_preserves_primary {ε α : Type} (s : StorageWrapper)
    (opsData : List (α × Except ε α)) (h : s.useFallback = false) :
    (runOps s (opsData.map fun p => OpSpec.mk (OpOutcome.ok p.1) p.2)).2 =
      opsData.map (fun p => (Except.ok p.1, [s.primaryStorage])) ∧
    (runOps s (opsData.map fun p => OpSpec.mk (OpOutcome.ok p.1) p.2)).1.useFallback = false :=
  ⟨(runOps_all_ok opsData s h).1, (runOps_all_ok opsData s h).2.1⟩

/-- C3 witness: two successful operations on the promoted wrapper are served
by the durable store and leave the facade in durable-primary state. -/
theorem anant_C3_witness :
    (runOps probeSuccessWrapper
      ([((3 : Nat), (Except.error "e" : Except String Nat)), (4, Except.ok 9)].map
        fun p => OpSpec.mk (OpOutcome.ok p.1) p.2)).2 =
      [(Except.ok 3, [StoreId.mongo]), (Except.ok 4, [StoreId.mongo])] ∧
    (runOps probeSuccessWrapper
      ([((3 : Nat), (Except.error "e" : Except String Nat)), (4, Except.ok 9)].map
        fun p => OpSpec.mk (OpOutcome.ok p.1) p.2)).1.useFallback = false :=
  anant_C3_success_preserves_primary probeSuccessWrapper
    [((3 : Nat), (Except.error "e" : Except String Nat)), (4, Except.ok 9)] rfl

/-- C4 counterexample: at process start the facade is not durable-preferred —
`new StorageWrapper(memStorage, memStorage)` designates the in-memory store,
not the durable store, as primary. -/
theorem anant_C4_counterexample :
    initialStorageWrapper.primaryStorage = StoreId.mem ∧
    initialStorageWrapper.primaryStorage ≠ StoreId.mongo :=
  ⟨rfl, by decide⟩

/-- C4 amended: the process-wide facade is initialized with the in-memory
store as both primary and fallback and `useFallback = false`; the durable
store becomes the designated primary only when the one-shot probe succeeds
and splices `new StorageWrapper(mongoStorage, memStorage)` onto the live
object; and the `useFallback` designation flips only on an observed failure,
never on a successful operation. -/
theorem anant_C4_amended :
    initialStorageWrapper = StorageWrapper.mk StoreId.mem StoreId.mem false false ∧
    probeSuccessWrapper = StorageWrapper.mk StoreId.mongo StoreId.mem false false ∧
    (∀ (s : StorageWrapper) (p : OpOutcome String Nat) (fb : Except String Nat),
      (executeWithFallback s p fb).1.useFallback = true →
      s.useFallback = true ∨ (∃ e, p = OpOutcome.threw e) ∨ p = OpOutcome.timedOut) :=
  ⟨rfl, rfl, fun s p fb h => executeWithFallback_flip_only_on_failure s p fb h⟩

/-- C4 witness: instantiating the flip-only-on-failure clause at a concrete
failed operation on the initial wrapper. -/
theorem anant_C4_witness :
    initialStorageWrapper.useFallback = true ∨
    (∃ e, (OpOutcome.threw "down" : OpOutcome String Nat) = OpOutcome.threw e) ∨
    (OpOutcome.threw "down" : OpOutcome String Nat) = OpOutcome.timedOut :=
  anant_C4_amended.2.2 initialStorageWrapper (OpOutcome.threw "down") (Except.ok 0) rfl

/-- C5 counterexample: on the mixed store `["ANT2023009", "8"]` the in-memory
`getLastReceiptNumber` returns `"ANT2023009"` (the lexicographic maximum), not
`"8"` as the claim's numeric-subset-first reading predicts. -/
theorem anant_C5_counterexample :
    c5MixedStore.receiptNumbers = ["ANT2023009", "8"] ∧
    c5MixedStore.getLastReceiptNumber = some "ANT2023009" ∧
    (some "ANT2023009" : Option String) ≠ some "8" := by
  refine ⟨by decide, by decide, by decide⟩

/-- C5 amended: the in-memory `getLastReceiptNumber` returns `none` on a store
with no donations; when all stored receipt numbers are pure digit strings it
returns one of them with the greatest numeric value (so `["7","12","9"]`
yields `"12"`); but when not all are digit strings, the comparator falls back
to pairwise lexicographic comparison, so the spec's mixed example
`["ANT2023009","8"]` yields `"ANT2023009"` — the lexicographic maximum — not
`"8"`. -/
theorem anant_C5_amended :
    (∀ s : MemStorage, s.donations = [] → s.getLastReceiptNumber = none) ∧
    (∀ s : MemStorage, s.donations ≠ [] →
      (∀ r ∈ s.receiptNumbers, isNumericString r = true) →
      ∃ r, s.getLastReceiptNumber = some r ∧ r ∈ s.receiptNumbers ∧
        ∀ q ∈ s.receiptNumbers, digitsVal q.data ≤ digitsVal r.data) ∧
    c5MixedStore.getLastReceiptNumber = some "ANT2023009" := by
  refine ⟨?_, ?_, by decide⟩
  · intro s h
    simp [MemStorage.getLastReceiptNumber, h, jsSortBy]
  · intro s hne hnum
    have hmemnum : ∀ x ∈ s.donations.map Prod.snd, isNumericString x.receiptNumber = true := by
      intro x hx
      apply hnum
      simp only [MemStorage.receiptNumbers]
      obtain ⟨p, hp, rfl⟩ := List.mem_map.mp hx
      exact List.mem_map.mpr ⟨p, hp, rfl⟩
    have htot : ∀ x ∈ s.donations.map Prod.snd, ∀ y ∈ s.donations.map Prod.snd,
        receiptLe x.receiptNumber y.receiptNumber = true ∨
        receiptLe y.receiptNumber x.receiptNumber = true := by
      intro x hx y hy
      have hx' := hmemnum x hx
      have hy' := hmemnum y hy
      simp only [receiptLe, hx', hy', Bool.and_self, if_pos, decide_eq_true_eq]
      exact Nat.le_total _ _
    have htrans : ∀ x ∈ s.donations.map Prod.snd, ∀ y ∈ s.donations.map Prod.snd,
        ∀ z ∈ s.donations.map Prod.snd,
        receiptLe x.receiptNumber y.receiptNumber = true →
        receiptLe y.receiptNumber z.receiptNumber = true →
        receiptLe x.receiptNumber z.receiptNumber = true := by
      intro x hx y hy z hz h1 h2
      have hx' := hmemnum x hx
      have hy' := hmemnum y hy
      have hz' := hmemnum z hz
      simp only [receiptLe, hx', hy', hz', Bool.and_self, if_pos, decide_eq_true_eq] at h1 h2 ⊢
      omega
    obtain ⟨d, rest, hsort⟩ :
        ∃ d rest, jsSortBy (fun a b => receiptLe a.receiptNumber b.receiptNumber)
          (s.donations.map Prod.snd) = d :: rest := by
      cases hs : jsSortBy (fun a b => receiptLe a.receiptNumber b.receiptNumber)
          (s.donations.map Prod.snd) with
      | nil =>
        exfalso
        have hlen := length_jsSortBy
          (fun (a b : Donation) => receiptLe a.receiptNumber b.receiptNumber)
          (s.donations.map Prod.snd)
        rw [hs] at hlen
        simp only [List.length_nil, List.length_map] at hlen
        exact hne (List.length_eq_zero.mp hlen.symm)
      | cons d rest => exact ⟨d, rest, rfl⟩
    obtain ⟨hdmem, hdmax⟩ := jsSortBy_head_max
      (fun a b => receiptLe a.receiptNumber b.receiptNumber)
      (s.donations.map Prod.snd) d rest hsort htot htrans
    refine ⟨d.receiptNumber, ?_, ?_, ?_⟩
    · simp only [MemStorage.getLastReceiptNumber, hsort]
    · simp only [MemStorage.receiptNumbers]
      obtain ⟨p, hp, rfl⟩ := List.mem_map.mp hdmem
      exact List.mem_map.mpr ⟨p, hp, rfl⟩
    · intro q hq
      simp only [MemStorage.receiptNumbers] at hq
      obtain ⟨p, hp, rfl⟩ := List.mem_map.mp hq
      have hx : p.2 ∈ s.donations.map Prod.snd := List.mem_map.mpr ⟨p, hp, rfl⟩
      have hle := hdmax p.2 hx
      have h1 := hmemnum p.2 hx
      have h2 := hmemnum d hdmem
      simp only [receiptLe, h1, h2, Bool.and_self, if_pos, decide_eq_true_eq] at hle
      exact hle

/-- C5 witness: the all-numeric store `["7","12","9"]` yields a receipt number
that is stored and numerically maximal. -/
theorem anant_C5_witness :
    ∃ r, c5NumericStore.getLastReceiptNumber = some r ∧ r ∈ c5NumericStore.receiptNumbers ∧
      ∀ q ∈ c5NumericStore.receiptNumbers, digitsVal q.data ≤ digitsVal r.data :=
  anant_C5_amended.2.1 c5NumericStore (by decide) (by decide)

theorem mongoMaxByReceipt_eq_none {l : List MongoDonationDoc}
    (h : mongoMaxByReceipt l = none) : l = [] := by
  cases l with
  | nil => rfl
  | cons d ds =>
    have hs := mongoMaxByReceipt_cons_isSome d ds
    rw [h] at hs
    cases hs

/-- C6 counterexample: on a durable store holding receipt numbers
`["7","12","9"]` (all pure-digit), `getLastReceiptNumber` returns `"9"` —
MongoDB sorts the string field lexicographically — although `"12"` is stored,
pure-digit, and numerically greater, contradicting the claimed
highest-numeric-value behavior. -/
theorem anant_C6_counterexample :
    mongoGetLastReceiptNumber c6Docs = some "9" ∧
    MongoDonationDoc.mk "12" ∈ c6Docs ∧
    isNumericString "12" = true ∧
    digitsVal "9".data < digitsVal "12".data := by
  refine ⟨by decide, by decide, by decide, by decide⟩

/-- C6 amended: the durable store's `getLastReceiptNumber` filters to
pure-digit receipt numbers first and, when any exist, returns the
lexicographically greatest of them under MongoDB's binary string sort (not
the numerically greatest — the two agree only on equal-length digit strings);
when none are pure-digit it returns the lexicographically greatest receipt
number overall, and `none` on an empty collection. -/
theorem anant_C6_amended :
    (∀ docs : List MongoDonationDoc,
      (∃ d ∈ docs, isNumericString d.receiptNumber = true) →
      ∃ r, mongoGetLastReceiptNumber docs = some r ∧
        (∃ d ∈ docs, d.receiptNumber = r ∧ isNumericString r = true) ∧
        ∀ d ∈ docs, isNumericString d.receiptNumber = true →
          lexLe d.receiptNumber r = true) ∧
    (∀ docs : List MongoDonationDoc, docs ≠ [] →
      (∀ d ∈ docs, isNumericString d.receiptNumber = false) →
      ∃ r, mongoGetLastReceiptNumber docs = some r ∧
        (∃ d ∈ docs, d.receiptNumber = r) ∧
        ∀ d ∈ docs, lexLe d.receiptNumber r = true) ∧
    mongoGetLastReceiptNumber [] = none := by
  refine ⟨?_, ?_, rfl⟩
  · rintro docs ⟨d0, hd0, hd0num⟩
    have hne : docs.filter (fun d => isNumericString d.receiptNumber) ≠ [] := by
      intro hnil
      have hmem : d0 ∈ docs.filter (fun d => isNumericString d.receiptNumber) :=
        List.mem_filter.mpr ⟨hd0, hd0num⟩
      rw [hnil] at hmem
      cases hmem
    cases hf : mongoMaxByReceipt (docs.filter fun d => isNumericString d.receiptNumber) with
    | none => exact absurd (mongoMaxByReceipt_eq_none hf) hne
    | some m =>
      obtain ⟨hmem, hmax⟩ := mongoMaxByReceipt_spec _ m hf
      have hm := List.mem_filter.mp hmem
      refine ⟨m.receiptNumber, ?_, ⟨m, hm.1, rfl, hm.2⟩, ?_⟩
      · simp only [mongoGetLastReceiptNumber, hf]
      · intro d hd hdnum
        have hdf : d ∈ docs.filter (fun x => isNumericString x.receiptNumber) :=
          List.mem_filter.mpr ⟨hd, hdnum⟩
        exact hmax d hdf
  · intro docs hne hnonum
    have hfilter : docs.filter (fun d => isNumericString d.receiptNumber) = [] := by
      rw [List.filter_eq_nil_iff]
      intro d hd
      simp [hnonum d hd]
    cases hall : mongoMaxByReceipt docs with
    | none => exact absurd (mongoMaxByReceipt_eq_none hall) hne
    | some m =>
      obtain ⟨hmem, hmax⟩ := mongoMaxByReceipt_spec docs m hall
      refine ⟨m.receiptNumber, ?_, ⟨m, hmem, rfl⟩, hmax⟩
      simp only [mongoGetLastReceiptNumber, hfilter, hall]
      rfl

/-- C6 witness: both branches of the amended behavior at concrete
collections — the all-numeric collection and the no-numeric collection. -/
theorem anant_C6_witness :
    (∃ r, mongoGetLastReceiptNumber c6Docs = some r ∧
      (∃ d ∈ c6Docs, d.receiptNumber = r ∧ isNumericString r = true) ∧
      ∀ d ∈ c6Docs, isNumericString d.receiptNumber = true →
        lexLe d.receiptNumber r = true) ∧
    (∃ r, mongoGetLastReceiptNumber c6AlphaDocs = some r ∧
      (∃ d ∈ c6AlphaDocs, d.receiptNumber = r) ∧
      ∀ d ∈ c6AlphaDocs, lexLe d.receiptNumber r = true) :=
  ⟨anant_C6_amended.1 c6Docs ⟨MongoDonationDoc.mk "7", by decide, by decide⟩,
    anant_C6_amended.2.1 c6AlphaDocs (by decide) (by decide)⟩

/-- C7 counterexample: for the stored document whose legacy `id` field is the
raw string `"abc"`, `updateUserStatus("abc", b)` finds and updates it via the
raw-string interpretation, but `getUser("abc")` returns `undefined` — so
`getUser` does not try the raw-string interpretation the claim asserts. -/
theorem anant_C7_counterexample :
    mongoGetUser c7Docs (JsId.str "abc") 0 = none ∧
    specThreeStrategyLookup c7Docs (JsId.str "abc") = some c7Doc ∧
    (mongoUpdateUserStatus c7Docs (JsId.str "abc") false 0).2 =
      some (mongoUserOfDoc { c7Doc with isActive := some false } 0) := by
  refine ⟨by decide, by decide, by decide⟩

/-- C7 amended: `updateUserStatus` resolves an id by trying the remote-native
`ObjectId` interpretation, then the integer interpretation (via `Number`),
then the raw-string interpretation, returning the first match — and updates
and returns the matched user with `isActive` replaced, or leaves the
collection unchanged and returns absent when no interpretation matches.
`getUser`, however, tries only the first two interpretations (integer via
`parseInt`) and returns absent without ever trying the raw string key. -/
theorem anant_C7_amended :
    (∀ (docs : List UserDoc) (id : JsId),
      mongoUpdateLookup docs id = specThreeStrategyLookup docs id) ∧
    (∀ (docs : List UserDoc) (id : JsId),
      mongoGetUserLookup docs id = specTwoStrategyLookup docs id) ∧
    (∀ (docs : List UserDoc) (id : JsId) (b : Bool) (now : Nat),
      mongoUpdateLookup docs id = none →
      mongoUpdateUserStatus docs id b now = (docs, none)) ∧
    (∀ (docs : List UserDoc) (id : JsId) (b : Bool) (now : Nat) (u : UserDoc),
      mongoUpdateLookup docs id = some u →
      (mongoUpdateUserStatus docs id b now).2 =
        some (mongoUserOfDoc { u with isActive := some b } now)) := by
  refine ⟨?_, ?_, ?_, ?_⟩
  · intro docs id
    cases id with
    | num n =>
      rcases hf : docs.find? (fun d => d.idField == some (JsId.num n)) with _ | d <;>
        simp [mongoUpdateLookup, specThreeStrategyLookup, lookupByNativeKey,
          lookupByIntKeyNumber, lookupByStringKey, jsNumberOfId, Option.orElse, hf]
    | str s =>
      by_cases hv : isValidObjectId s = true
      · rcases hf1 : docs.find? (fun d => d.oid == s) with _ | d
        · rcases hn : jsNumberStr s with _ | n
          · simp [mongoUpdateLookup, specThreeStrategyLookup, lookupByNativeKey,
              lookupByIntKeyNumber, lookupByStringKey, jsNumberOfId, Option.orElse, hv, hf1, hn]
          · rcases hf2 : docs.find? (fun d => d.idField == some (JsId.num n)) with _ | d <;>
              simp [mongoUpdateLookup, specThreeStrategyLookup, lookupByNativeKey,
                lookupByIntKeyNumber, lookupByStringKey, jsNumberOfId, Option.orElse,
                hv, hf1, hn, hf2]
        · simp [mongoUpdateLookup, specThreeStrategyLookup, lookupByNativeKey,
            lookupByIntKeyNumber, lookupByStringKey, jsNumberOfId, Option.orElse, hv, hf1]
      · rcases hn : jsNumberStr s with _ | n
        · simp [mongoUpdateLookup, specThreeStrategyLookup, lookupByNativeKey,
            lookupByIntKeyNumber, lookupByStringKey, jsNumberOfId, Option.orElse, hv, hn]
        · rcases hf2 : docs.find? (fun d => d.idField == some (JsId.num n)) with _ | d <;>
            simp [mongoUpdateLookup, specThreeStrategyLookup, lookupByNativeKey,
              lookupByIntKeyNumber, lookupByStringKey, jsNumberOfId, Option.orElse, hv, hn, hf2]
  · intro docs id
    cases id with
    | num n =>
      rcases hf : docs.find? (fun d => d.idField == some (JsId.num n)) with _ | d <;>
        simp [mongoGetUserLookup, specTwoStrategyLookup, lookupByNativeKey,
          lookupByIntKeyParseInt, parseIntOfId, Option.orElse, hf]
    | str s =>
      by_cases hv : isValidObjectId s = true
      · rcases hf1 : docs.find? (fun d => d.oid == s) with _ | d <;>
          simp [mongoGetUserLookup, specTwoStrategyLookup, lookupByNativeKey,
            lookupByIntKeyParseInt, parseIntOfId, Option.orElse, hv, hf1]
      · simp [mongoGetUserLookup, specTwoStrategyLookup, lookupByNativeKey,
          lookupByIntKeyParseInt, parseIntOfId, Option.orElse, hv]
  · intro docs id b now h
    simp only [mongoUpdateUserStatus, h]
  · intro docs id b now u h
    simp only [mongoUpdateUserStatus, h]

/-- C7 witness: the amended clauses at concrete inputs — a numeric id that
matches nothing leaves the collection unchanged, and the raw-string id is
resolved identically by the code lookup and the three-strategy composition. -/
theorem anant_C7_witness :
    mongoUpdateUserStatus c7Docs (JsId.num 5) true 0 = (c7Docs, none) ∧
    mongoUpdateLookup c7Docs (JsId.str "abc") = specThreeStrategyLookup c7Docs (JsId.str "abc") :=
  ⟨anant_C7_amended.2.2.1 c7Docs (JsId.num 5) true 0 (by decide),
    anant_C7_amended.1 c7Docs (JsId.str "abc")⟩

theorem find_receipt_setAssoc :
    ∀ (l : List (Int × Donation)) (k : Int) (rec : Donation),
      (∀ p ∈ l, p.2.receiptNumber ≠ rec.receiptNumber) →
      ((setAssoc l k rec).map Prod.snd).find?
        (fun x => x.receiptNumber == rec.receiptNumber) = some rec
  | [], k, rec, _ => by simp [setAssoc]
  | (k', v') :: l, k, rec, hfresh => by
    simp only [setAssoc]
    split
    case isTrue h =>
      simp [List.find?]
    case isFalse h =>
      have hv' : (v'.receiptNumber == rec.receiptNumber) = false := by
        simp only [beq_eq_false_iff_ne, ne_eq]
        exact hfresh (k', v') (List.mem_cons_self _ _)
      simp only [List.map_cons, List.find?, hv']
      exact find_receipt_setAssoc l k rec
        (fun p hp => hfresh p (List.mem_cons_of_mem _ hp))

/-- C8 counterexample: for the schema-valid candidate whose optional PAN field
is the empty string, the round-tripped record's `panNumber` is `null`
(`x || null` normalizes the falsy empty string), so the record is not equal to
the candidate in every field besides id and timestamp. -/
theorem anant_C8_counterexample :
    (MemStorage.blank.createDonation c8Insert 7).1.getDonationByReceiptNumber "R1" =
      some (mkMemDonation c8Insert 1 7) ∧
    (mkMemDonation c8Insert 1 7).panNumber = none ∧
    c8Insert.panNumber = some "" ∧
    (none : Option String) ≠ some "" := by
  refine ⟨by decide, rfl, rfl, by decide⟩

/-- C8 amended: for any store with no donation already carrying the
candidate's receipt number, `createDonation(d)` followed by
`getDonationByReceiptNumber(d.receiptNumber)` returns exactly the stored
record: equal to `d` in every field except the store-assigned id and the
creation timestamp, after the optional fields (`panNumber`, `instrumentDate`,
`drawnOn`, `instrumentNumber`, `createdBy`) go through the source's
`x || null` normalization, which maps an absent or empty value to `null`. -/
theorem anant_C8_amended (s : MemStorage) (d : InsertDonation) (now : Nat)
    (hfresh : ∀ p ∈ s.donations, p.2.receiptNumber ≠ d.receiptNumber) :
    (s.createDonation d now).1.getDonationByReceiptNumber d.receiptNumber =
      some (mkMemDonation d s.donationCurrentId now) := by
  simp only [MemStorage.createDonation, MemStorage.getDonationByReceiptNumber]
  exact find_receipt_setAssoc s.donations s.donationCurrentId
    (mkMemDonation d s.donationCurrentId now) hfresh

/-- C8 witness: the round trip at a concrete fresh store and candidate. -/
theorem anant_C8_witness :
    (MemStorage.blank.createDonation (sampleInsertDonation "77") 3).1.getDonationByReceiptNumber
      "77" = some (mkMemDonation (sampleInsertDonation "77") 1 3) :=
  anant_C8_amended MemStorage.blank (sampleInsertDonation "77") 3 (by decide)

/-- C9: the create-user route rejects a request whose username already exists
in the store before invoking `createUser` — the store is returned unchanged —
and, when the username is not present, it calls `createUser` and answers
201 with the created account, which carries the requested username, is
active, and is stored under the assigned id. -/
theorem anant_C9_create_user_route :
    (∀ (s : MemStorage) (nu : InsertUser) (now : Nat),
      (∃ u, s.getUserByUsername nu.username = some u) →
      createUserRoute s nu now = (s, CreateUserResponse.badRequest)) ∧
    (∀ (s : MemStorage) (nu : InsertUser) (now : Nat),
      s.getUserByUsername nu.username = none →
      createUserRoute s nu now =
        ((s.createUser nu now).1, CreateUserResponse.created (s.createUser nu now).2) ∧
      (s.createUser nu now).2.username = nu.username ∧
      (s.createUser nu now).2.isActive = true ∧
      getAssoc (s.createUser nu now).1.users s.userCurrentId = some (s.createUser nu now).2) := by
  constructor
  · rintro s nu now ⟨u, hu⟩
    simp [createUserRoute, hu]
  · intro s nu now h
    refine ⟨by simp [createUserRoute, h], rfl, rfl, ?_⟩
    simp only [MemStorage.createUser]
    exact getAssoc_setAssoc_self s.users s.userCurrentId _

/-- C9 witness: the duplicate admin username is rejected with the store
unchanged, and a fresh username is created and returned. -/
theorem anant_C9_witness :
    createUserRoute (initialMemStorage 0) adminInsertUser 5 =
      (initialMemStorage 0, CreateUserResponse.badRequest) ∧
    createUserRoute (initialMemStorage 0) freshInsertUser 5 =
      (((initialMemStorage 0).createUser freshInsertUser 5).1,
        CreateUserResponse.created ((initialMemStorage 0).createUser freshInsertUser 5).2) :=
  ⟨anant_C9_create_user_route.1 (initialMemStorage 0) adminInsertUser 5 ⟨adminUser0, by decide⟩,
    (anant_C9_create_user_route.2 (initialMemStorage 0) freshInsertUser 5 (by decide)).1⟩

/-- C10: when a user exists at the numeric coercion of the id,
`updateUserStatus(id, b)` returns that user with only `isActive` replaced and
mutates the store at that entry alone — every other user key, the donations
map and both id counters are untouched; when no user exists there (or the id
does not coerce), the result is absent and the store is returned unchanged. -/
theorem anant_C10_update_user_status_frame :
    (∀ (s : MemStorage) (id : JsId) (b : Bool) (n : Int) (u : User),
      jsNumberOfId id = some n → getAssoc s.users n = some u →
      (s.updateUserStatus id b).2 = some { u with isActive := b } ∧
      getAssoc (s.updateUserStatus id b).1.users n = some { u with isActive := b } ∧
      (∀ k : Int, k ≠ n → getAssoc (s.updateUserStatus id b).1.users k = getAssoc s.users k) ∧
      (s.updateUserStatus id b).1.donations = s.donations ∧
      (s.updateUserStatus id b).1.userCurrentId = s.userCurrentId ∧
      (s.updateUserStatus id b).1.donationCurrentId = s.donationCurrentId) ∧
    (∀ (s : MemStorage) (id : JsId) (b : Bool),
      (∀ n, jsNumberOfId id = some n → getAssoc s.users n = none) →
      s.updateUserStatus id b = (s, none)) := by
  constructor
  · intro s id b n u hn hu
    have hstep : s.updateUserStatus id b =
        ({ s with users := setAssoc s.users n { u with isActive := b } },
          some { u with isActive := b }) := by
      simp only [MemStorage.updateUserStatus, hn, hu]
    rw [hstep]
    refine ⟨rfl, ?_, ?_, rfl, rfl, rfl⟩
    · exact getAssoc_setAssoc_self s.users n _
    · intro k hk
      exact getAssoc_setAssoc_ne s.users n k _ (fun hkk => hk hkk.symm)
  · intro s id b h
    cases hn : jsNumberOfId id with
    | none => simp [MemStorage.updateUserStatus, hn]
    | some n => simp [MemStorage.updateUserStatus, hn, h n hn]

/-- C10 witness: deactivating the admin through the string id `"1"` updates
exactly that record, and a missing id leaves the store untouched. -/
theorem anant_C10_witness :
    ((initialMemStorage 0).updateUserStatus (JsId.str "1") false).2 =
      some { adminUser0 with isActive := false } ∧
    (initialMemStorage 0).updateUserStatus (JsId.num 9) true = (initialMemStorage 0, none) := by
  constructor
  · exact (anant_C10_update_user_status_frame.1 (initialMemStorage 0) (JsId.str "1") false 1
      adminUser0 (by decide) (by decide)).1
  · refine anant_C10_update_user_status_frame.2 (initialMemStorage 0) (JsId.num 9) true ?_
    intro n hn
    injection hn with h
    subst h
    decide
